import Mathlib

/-!
Shallow embedding of the cif2cell geometry core (`src/utils.py`).

Python floats are modelled as exact rationals (`ℚ`); a float literal such
as `0.0002` is read as the exact rational it denotes in the source text.
Python lists of three floats become the structure `V3`; methods that may
raise an exception return `Except String`.
-/

namespace Cif2Cell

/-- Module constant `zero = 0.0` (utils.py line 29). -/
def zero : ℚ := 0

/-- Module constant `one = 1.0`. -/
def one : ℚ := 1

/-- Module constant `two = 2.0`. -/
def two : ℚ := 2

/-- Module constant `three = 3.0`. -/
def three : ℚ := 3

/-- Module constant `four = 4.0`. -/
def four : ℚ := 4

/-- Module constant `six = 6.0`. -/
def six : ℚ := 6

/-- Module constant `third = 1/3` (true division). -/
def third : ℚ := 1/3

/-- Module constant `half = one/two`. -/
def half : ℚ := one/two

/-- Module constant `fourth = one/four`. -/
def fourth : ℚ := one/four

/-- Module constant `sixth = one/six`. -/
def sixth : ℚ := one/six

/-- Module constant `occepsilon = 0.000001`. -/
def occepsilon : ℚ := 1/1000000

/-- The exact rational value of the IEEE-754 double `sqrt(2.0)`,
the only non-rational member of `floatlist` (utils.py line 40). -/
def sqrt2 : ℚ := 6369051672525773/4503599627370496

/-- `floatlist` of conspicuous values used by `improveprecision`
(utils.py line 40). -/
def floatlist : List ℚ := [third, 2*third, half, fourth, one, zero, sqrt2, sixth, 5*sixth]

/-- `GeometryObject.compeps = 0.0002`, the comparison epsilon every
geometric object carries (utils.py line 81). -/
def compeps : ℚ := 1/5000

/-- `copysign(x, y)`: `x` with the sign of `y` (utils.py lines 530-534). -/
def copysign (x y : ℚ) : ℚ := if 0 ≤ y then x else -x

/-- One component of `LatticeVector.intocell` (utils.py lines 206-209):
`while not (interval[0] <= c < interval[1]): c -= copysign(1, c)`.
At every call site in the source the interval is the default `[0, 1)`
(the method is only invoked on freshly constructed vectors, whose
`interval` attribute is `[0.0, 1.0]`), so the embedding fixes the
bounds to `0` and `1`. -/
def foldUnit (x : ℚ) : ℚ :=
  if h : 0 ≤ x ∧ x < 1 then x
  else foldUnit (x - copysign 1 x)
termination_by (if 0 ≤ x then ⌊x⌋.toNat else ⌈-x⌉.toNat)
decreasing_by
  by_cases hx : 0 ≤ x
  · have hx1 : (1:ℚ) ≤ x := by
      by_contra hlt
      exact h ⟨hx, by linarith⟩
    have hc : copysign 1 x = 1 := by simp [copysign, hx]
    rw [hc]
    have hge : (0:ℚ) ≤ x - 1 := by linarith
    rw [if_pos hx, if_pos hge]
    have hfl : ⌊x - (1:ℚ)⌋ = ⌊x⌋ - 1 := by
      have := Int.floor_sub_int x 1
      simpa using this
    have hone : (1:ℤ) ≤ ⌊x⌋ := Int.le_floor.mpr (by exact_mod_cast hx1)
    omega
  · have hxneg : x < 0 := lt_of_not_le hx
    have hc : copysign 1 x = -1 := by simp [copysign, hx]
    rw [hc]
    have hstep : x - (-1 : ℚ) = x + 1 := by ring
    rw [hstep, if_neg hx]
    have hceil : (1:ℤ) ≤ ⌈-x⌉ := by
      have : (0:ℤ) < ⌈-x⌉ := Int.ceil_pos.mpr (by linarith)
      omega
    by_cases hx1 : 0 ≤ x + 1
    · rw [if_pos hx1]
      have hfl : ⌊x + (1:ℚ)⌋ = 0 := by
        rw [Int.floor_eq_zero_iff]
        constructor
        · exact hx1
        · linarith
      omega
    · rw [if_neg hx1]
      have hneg : -(x + 1) = -x - 1 := by ring
      rw [hneg]
      have hcl : ⌈-x - (1:ℚ)⌉ = ⌈-x⌉ - 1 := by
        have := Int.ceil_sub_int (-x) 1
        simpa using this
      omega

/-- An ordered triple of rationals, the contents of a three-component
`Vector` (utils.py line 105: "Assumed to have length three"). -/
structure V3 where
  x0 : ℚ
  x1 : ℚ
  x2 : ℚ
deriving DecidableEq, Repr

/-- `LatticeVector.intocell` applied to all three components, with the
default interval `[0, 1)` (see `foldUnit`). -/
def intocell1 (v : V3) : V3 :=
  ⟨foldUnit v.x0, foldUnit v.x1, foldUnit v.x2⟩

/-- The inner loop of `Vector.improveprecision` (utils.py lines 167-173):
scan `floatlist` and return the first entry within `compeps` of `x`
(the `break`), or `x` itself when none matches. -/
def snapTo : List ℚ → ℚ → ℚ
  | [], x => x
  | f :: fs, x => if |x - f| ≤ compeps then f else snapTo fs x

/-- `Vector.improveprecision` on one component. -/
def improveprec (x : ℚ) : ℚ := snapTo floatlist x

/-- `Vector.improveprecision` on all three components. -/
def improveprecV (v : V3) : V3 :=
  ⟨improveprec v.x0, improveprec v.x1, improveprec v.x2⟩

/-- A `LatticeVector`: three components plus the coordinate interval
attribute (utils.py lines 175-209). The interval is stored as the pair
`(interval[0], interval[1])`. -/
structure LatticeVector where
  vec : V3
  interval : ℚ × ℚ
deriving DecidableEq, Repr

/-- `LatticeVector.__init__` (utils.py lines 179-185): store the
components, set `interval = [0.0, 1.0]`, fold into the cell with
`intocell`, then run `improveprecision`. -/
def mkLatticeVector (v : V3) : LatticeVector :=
  { vec := improveprecV (intocell1 v), interval := ((0:ℚ), (1:ℚ)) }

/-- `LatticeVector.__add__` (utils.py lines 188-193): raise
`GeometryObjectError` when the two interval definitions differ
(comparing `interval[0]` and `interval[1]` separately); otherwise build
a fresh `LatticeVector` from the componentwise sums (which re-folds and
snaps with the default interval) and fold it once more.  The raise
happens before anything is written, so in the source neither operand is
mutated on the error path; the embedding is pure either way. -/
def LatticeVector.add (a b : LatticeVector) : Except String LatticeVector :=
  if a.interval.1 ≠ b.interval.1 ∨ a.interval.2 ≠ b.interval.2 then
    .error "LatticeVectors must have the same definition intervals to be added."
  else
    let t := mkLatticeVector ⟨a.vec.x0 + b.vec.x0, a.vec.x1 + b.vec.x1, a.vec.x2 + b.vec.x2⟩
    .ok { t with vec := intocell1 t.vec }

/-- `LatticeVector.change_interval` (utils.py lines 195-199).  The method
sets `self.interval = interval`, builds a zero `LatticeVector` `t` with
the new interval, and then executes `self = self + t` — which only
rebinds the local name `self` and never reaches the caller's object, and
whose discarded result would in any case carry the default interval.
The object's observable state change is therefore exactly the interval
assignment: the components are left untouched. -/
def LatticeVector.change_interval (lv : LatticeVector) (ivl : ℚ × ℚ) : LatticeVector :=
  { lv with interval := ivl }

/-- A 3x3 matrix of rationals, indexed as `m[row][col]` in the source. -/
structure M3 where
  m00 : ℚ
  m01 : ℚ
  m02 : ℚ
  m10 : ℚ
  m11 : ℚ
  m12 : ℚ
  m20 : ℚ
  m21 : ℚ
  m22 : ℚ
deriving DecidableEq, Repr

/-- The 3x3 identity matrix. -/
def idM3 : M3 := ⟨1, 0, 0, 0, 1, 0, 0, 0, 1⟩

/-- `mvmult3(mat, vec)` (utils.py lines 478-485): note the transposed
convention `w[i] = sum_j mat[j][i] * vec[j]`. -/
def mvmult3 (m : M3) (v : V3) : V3 :=
  ⟨m.m00 * v.x0 + m.m10 * v.x1 + m.m20 * v.x2,
   m.m01 * v.x0 + m.m11 * v.x1 + m.m21 * v.x2,
   m.m02 * v.x0 + m.m12 * v.x1 + m.m22 * v.x2⟩

/-- `LatticeVector.transform` (utils.py lines 201-204): build a fresh
`LatticeVector` from `mvmult3(matrix, self)` (which folds and snaps with
the default interval) and fold it once more. -/
def LatticeVector.transform (lv : LatticeVector) (m : M3) : LatticeVector :=
  let t := mkLatticeVector (mvmult3 m lv.vec)
  { t with vec := intocell1 t.vec }

/-- `mmmult3(m1, m2)` (utils.py lines 499-508): standard row-by-column
matrix product. -/
def mmmult3 (a b : M3) : M3 :=
  ⟨a.m00 * b.m00 + a.m01 * b.m10 + a.m02 * b.m20,
   a.m00 * b.m01 + a.m01 * b.m11 + a.m02 * b.m21,
   a.m00 * b.m02 + a.m01 * b.m12 + a.m02 * b.m22,
   a.m10 * b.m00 + a.m11 * b.m10 + a.m12 * b.m20,
   a.m10 * b.m01 + a.m11 * b.m11 + a.m12 * b.m21,
   a.m10 * b.m02 + a.m11 * b.m12 + a.m12 * b.m22,
   a.m20 * b.m00 + a.m21 * b.m10 + a.m22 * b.m20,
   a.m20 * b.m01 + a.m21 * b.m11 + a.m22 * b.m21,
   a.m20 * b.m02 + a.m21 * b.m12 + a.m22 * b.m22⟩

/-- `det3(m)` (utils.py lines 463-467). -/
def det3 (m : M3) : ℚ :=
  m.m00 * (m.m11 * m.m22 - m.m12 * m.m21) +
  m.m01 * (m.m12 * m.m20 - m.m10 * m.m22) +
  m.m02 * (m.m10 * m.m21 - m.m11 * m.m20)

/-- `minv3(m)` (utils.py lines 470-475): adjugate divided by the
determinant (`di = 1/det3(m)`). -/
def minv3 (m : M3) : M3 :=
  let di := 1 / det3 m
  ⟨(m.m11 * m.m22 - m.m12 * m.m21) * di,
   (m.m02 * m.m21 - m.m01 * m.m22) * di,
   (m.m01 * m.m12 - m.m02 * m.m11) * di,
   (m.m12 * m.m20 - m.m10 * m.m22) * di,
   (m.m00 * m.m22 - m.m02 * m.m20) * di,
   (m.m02 * m.m10 - m.m00 * m.m12) * di,
   (m.m10 * m.m21 - m.m11 * m.m20) * di,
   (m.m01 * m.m20 - m.m00 * m.m21) * di,
   (m.m00 * m.m11 - m.m01 * m.m10) * di⟩

/-- `crystal_system(spacegroupnr)` (utils.py lines 510-527).  The chained
comparisons translate literally; note the source's `75 <` lower bound for
the tetragonal range, leaving 75 itself unclassified. -/
def crystal_system (spacegroupnr : ℤ) : String :=
  if 0 < spacegroupnr ∧ spacegroupnr ≤ 2 then "triclinic"
  else if 2 < spacegroupnr ∧ spacegroupnr ≤ 15 then "monoclinic"
  else if 15 < spacegroupnr ∧ spacegroupnr ≤ 74 then "orthorhombic"
  else if 75 < spacegroupnr ∧ spacegroupnr ≤ 142 then "tetragonal"
  else if 142 < spacegroupnr ∧ spacegroupnr ≤ 167 then "trigonal"
  else if 167 < spacegroupnr ∧ spacegroupnr ≤ 194 then "hexagonal"
  else if 194 < spacegroupnr ∧ spacegroupnr ≤ 230 then "cubic"
  else "unknown"

/-- The raw storage of the `Vector` class (utils.py line 105): it is a
Python `list` subclass, so it holds whatever sequence it was built from,
of any length. -/
structure VectorPy where
  data : List ℚ
deriving DecidableEq, Repr

/-- `Vector.__init__(vec)` (utils.py lines 118-120): it runs
`GeometryObject.__init__` (setting `compeps`) and `list.__init__`
(copying the elements).  The body contains no length check and no
`raise`, so construction never fails; the `Except` return type records
that the constructor is where a validation error would have to appear. -/
def mkVector (l : List ℚ) : Except String VectorPy := .ok ⟨l⟩

/-- `Vector.__eq__` (utils.py lines 123-127): return `False` as soon as
one of the three components differs by more than `compeps`, else
`True`. -/
def vecEqB (a b : V3) : Bool :=
  if |a.x0 - b.x0| > compeps then false
  else if |a.x1 - b.x1| > compeps then false
  else if |a.x2 - b.x2| > compeps then false
  else true

/-- The squared euclidean norm `self[0]**2 + self[1]**2 + self[2]**2`
computed inside `Vector.__lt__` (utils.py lines 130-133). -/
def vecNormSq (v : V3) : ℚ := v.x0^2 + v.x1^2 + v.x2^2

/-- `Vector.__lt__` (utils.py lines 130-133): compare squared norms. -/
def vecLtB (a b : V3) : Bool := decide (vecNormSq a < vecNormSq b)

/-- The number fed to `hash` by `Vector.__hash__` (utils.py line 122):
`1.1*self[0] + 1.2*self[1] + 1.3*self[2]`.  Python's numeric `hash` is
injective on values of this magnitude (it reduces an exact rational
modulo `2^61 - 1`), so hash equality of two vectors is equality of these
weighted sums. -/
def vectorHash (v : V3) : ℚ := (11/10) * v.x0 + (12/10) * v.x1 + (13/10) * v.x2

/-- A model of Python's `hash` on strings: any fixed function of the
string works, because the claims only use that equal strings hash
equally and that the string term cancels between two sites with the same
species. -/
def pyHashStr (s : String) : ℚ :=
  (((s.toList.map (fun c => c.toNat)).foldl (fun a n => 131 * a + n) 7 : ℕ) : ℚ)

/-- Insertion step for sorting strings, modelling Python's `sorted`. -/
def insertStr (s : String) : List String → List String
  | [] => [s]
  | t :: ts => if s ≤ t then s :: t :: ts else t :: insertStr s ts

/-- `sorted` on a list of strings. -/
def sortStrs (l : List String) : List String := l.foldr insertStr []

/-- `''.join(...)` on a list of strings. -/
def joinStrs (l : List String) : String := l.foldl (fun a b => a ++ b) ""

/-- An `AtomSite` (utils.py lines 248-291): a lattice position, a
species-occupancy mapping (modelled as an association list in insertion
order), a label, per-species charges and an optional index. -/
structure AtomSite where
  position : LatticeVector
  species : List (String × ℚ)
  label : String
  charges : List (String × ℚ)
  index : Option ℤ
deriving DecidableEq, Repr

/-- `AtomSite.__init__(position, species)` (utils.py lines 266-287) with
the remaining arguments left at their defaults: the position is wrapped
in a `LatticeVector` (folding and snapping it), and `charges` defaults
to a zero charge for every species key. -/
def mkAtomSite (pos : V3) (species : List (String × ℚ)) : AtomSite :=
  { position := mkLatticeVector pos
    species := species
    label := ""
    charges := species.map (fun p => (p.1, 0))
    index := none }

/-- The number fed to `hash` by `AtomSite.__hash__` (utils.py lines
288-289): `hash(position) + hash(''.join(sorted(species.keys()))) +
hash(sum(species.values()))`.  The three Python hashes are modelled by
the hashed values themselves (see `vectorHash`, `pyHashStr`). -/
def siteHash (s : AtomSite) : ℚ :=
  vectorHash s.position.vec
    + pyHashStr (joinStrs (sortStrs (s.species.map Prod.fst)))
    + (s.species.map Prod.snd).foldl (fun a b => a + b) 0

/-- `AtomSite.__eq__` (utils.py lines 290-291): tolerance equality of the
positions and equality of the species dictionaries. -/
def siteEq (s t : AtomSite) : Bool :=
  vecEqB s.position.vec t.position.vec && decide (s.species = t.species)

/-- Python `str.replace(c, r)` for a single-character pattern, on the
character list of the string. -/
def pyReplace (s : List Char) (c : Char) (r : List Char) : List Char :=
  s.foldr (fun a acc => if a = c then r ++ acc else a :: acc) []

/-- Split a character list at every occurrence of `c` (Python
`str.split` keeps the pieces; empties are filtered by `tokens`). -/
def pySplit (c : Char) : List Char → List (List Char)
  | [] => [[]]
  | a :: rest =>
    match pySplit c rest with
    | [] => [[]]
    | g :: gs => if a = c then [] :: g :: gs else (a :: g) :: gs

/-- Python `str.strip(chars)`: drop the characters of `cs` from both
ends of `s`. -/
def pyStrip (s : List Char) (cs : List Char) : List Char :=
  ((s.dropWhile (fun a => cs.contains a)).reverse.dropWhile (fun a => cs.contains a)).reverse

/-- The tokenisation shared by `rotmat` and `transvec` (utils.py lines
395 and 410): `eqsite[j].replace('+',' +').replace('-',' -').split()`. -/
def tokens (comp : List Char) : List (List Char) :=
  (pySplit ' ' (pyReplace (pyReplace comp '+' [' ', '+']) '-' [' ', '-'])).filter
    (fun t => !t.isEmpty)

/-- Value of a nonempty digit string, or `none` when some character is
not a digit. -/
def digitsVal (l : List Char) : Option ℕ :=
  if l.isEmpty then none
  else l.foldlM (fun acc c => if c.isDigit then some (10 * acc + (c.toNat - '0'.toNat)) else none) 0

/-- Unsigned decimal literal: `digits` or `digits.digits`, as accepted by
Python's `float`/`eval` for the strings the symmetry grammar produces. -/
def parseDec (l : List Char) : Option ℚ :=
  match pySplit '.' l with
  | [a] => (digitsVal a).map (fun n => (n : ℚ))
  | [a, b] =>
    match digitsVal a, digitsVal b with
    | some n, some m => some ((n : ℚ) + (m : ℚ) / (10:ℚ)^(b.length))
    | _, _ => none
  | _ => none

/-- Decimal literal with an optional leading sign. -/
def parseSignedDec (l : List Char) : Option ℚ :=
  match l with
  | '+' :: rest => parseDec rest
  | '-' :: rest => (parseDec rest).map (fun q => -q)
  | _ => parseDec l

/-- Module-level numeric names of utils.py that are in scope when
`transvec` calls `eval` (lines 29-39). -/
def lookupName (l : List Char) : Option ℚ :=
  if l = "zero".toList then some zero
  else if l = "one".toList then some one
  else if l = "two".toList then some two
  else if l = "three".toList then some three
  else if l = "four".toList then some four
  else if l = "six".toList then some six
  else if l = "third".toList then some third
  else if l = "half".toList then some half
  else if l = "fourth".toList then some fourth
  else if l = "sixth".toList then some sixth
  else if l = "occepsilon".toList then some occepsilon
  else none

/-- Model of the `eval(i)` call in `transvec` (utils.py line 413),
restricted to the expressions a symmetry token can denote: a module
constant name, a signed decimal literal, or a single fraction `a/b`
(true division is active).  `none` models the `NameError`/`SyntaxError`
(or `ZeroDivisionError`) Python raises for anything else. -/
def pyEval (l : List Char) : Option ℚ :=
  match lookupName l with
  | some q => some q
  | none =>
    match pySplit '/' l with
    | [a] => parseSignedDec a
    | [a, b] =>
      match parseSignedDec a, parseSignedDec b with
      | some p, some q => if q = 0 then none else some (p / q)
      | _, _ => none
    | _ => none

/-- The coefficient `float(i.strip(v) + "1")` computed by `rotmat`
(utils.py lines 398, 400, 402): strip the variable letter from the token,
append `"1"`, and read the result as a float; `none` models the
`ValueError` Python raises when the remainder is not a float literal. -/
def signedOne (tok : List Char) (v : Char) : Option ℚ :=
  parseSignedDec (pyStrip tok [v] ++ ['1'])

/-- One column of the rotation matrix built by
`SymmetryOperation.rotmat` (utils.py lines 392-403).  For the component
expression at index `j`, the source loops over the tokens and writes
`mat[0][j]`, `mat[1][j]`, `mat[2][j]` for `x`, `y`, `z` tokens
respectively (other tokens are skipped), so column `j` of the final
matrix depends only on this component's tokens; the returned triple is
`(mat[0][j], mat[1][j], mat[2][j])`, initially `(0, 0, 0)`. -/
def rotColumn (comp : List Char) : Except String (ℚ × ℚ × ℚ) :=
  (tokens comp).foldlM
    (fun (acc : ℚ × ℚ × ℚ) tok =>
      if pyStrip tok ['+', '-'] = ['x'] then
        match signedOne tok 'x' with
        | some q => .ok (q, acc.2.1, acc.2.2)
        | none => .error "ValueError: could not convert string to float"
      else if pyStrip tok ['+', '-'] = ['y'] then
        match signedOne tok 'y' with
        | some q => .ok (acc.1, q, acc.2.2)
        | none => .error "ValueError: could not convert string to float"
      else if pyStrip tok ['+', '-'] = ['z'] then
        match signedOne tok 'z' with
        | some q => .ok (acc.1, acc.2.1, q)
        | none => .error "ValueError: could not convert string to float"
      else .ok acc)
    (0, 0, 0)

/-- `SymmetryOperation.rotmat` for a three-component equivalent-site
expression (the grammar fixes three comma-separated components; the
source iterates `j` over them). -/
def rotmat (e0 e1 e2 : List Char) : Except String M3 :=
  match rotColumn e0 with
  | .error m => .error m
  | .ok c0 =>
    match rotColumn e1 with
    | .error m => .error m
    | .ok c1 =>
      match rotColumn e2 with
      | .error m => .error m
      | .ok c2 =>
        .ok ⟨c0.1, c1.1, c2.1, c0.2.1, c1.2.1, c2.2.1, c0.2.2, c1.2.2, c2.2.2⟩

/-- The token loop of `SymmetryOperation.transvec` for one component
(utils.py lines 409-413): for every token whose residue after stripping
`+-xyz` is nonempty, overwrite the accumulator with `eval` of the token;
a failing `eval` raises immediately. -/
def transCompAux (acc : ℚ) : List (List Char) → Except String ℚ
  | [] => .ok acc
  | tok :: rest =>
    if pyStrip tok ['+', '-', 'x', 'y', 'z'] ≠ [] then
      match pyEval tok with
      | some q => transCompAux q rest
      | none => .error "NameError: token is not a recognized expression"
    else transCompAux acc rest

/-- One component of `SymmetryOperation.transvec` (utils.py lines
405-414): the component starts at `0.0` and is updated by the token
loop. -/
def transComp (comp : List Char) : Except String ℚ :=
  transCompAux 0 (tokens comp)

/-- `SymmetryOperation.transvec` for a three-component expression. -/
def transvec (e0 e1 e2 : List Char) : Except String V3 :=
  match transComp e0 with
  | .error m => .error m
  | .ok t0 =>
    match transComp e1 with
    | .error m => .error m
    | .ok t1 =>
      match transComp e2 with
      | .error m => .error m
      | .ok t2 => .ok ⟨t0, t1, t2⟩

/-- A resolved `SymmetryOperation` (utils.py lines 340-352): the parsed
rotation matrix and the translation wrapped in a `LatticeVector`. -/
structure SymOp where
  rotation : M3
  translation : LatticeVector
deriving DecidableEq, Repr

/-- `SymmetryOperation.__init__(eqsite)` for a three-component
equivalent-site expression (utils.py lines 344-349): compute the
rotation first, then the translation (each propagating the exception of
a bad token), and fold the translation through the `LatticeVector`
constructor. -/
def mkSymmetryOperation (e0 e1 e2 : List Char) : Except String SymOp :=
  match rotmat e0 e1 e2 with
  | .error m => .error m
  | .ok rot =>
    match transvec e0 e1 e2 with
    | .error m => .error m
    | .ok tv => .ok ⟨rot, mkLatticeVector tv⟩

/-- `SymmetryOperation.diagonal` (utils.py lines 416-425): all six
off-diagonal rotation entries are smaller than `compeps` in absolute
value. -/
def diagonalB (o : SymOp) : Bool :=
  decide (|o.rotation.m01| < compeps ∧ |o.rotation.m02| < compeps ∧
          |o.rotation.m10| < compeps ∧ |o.rotation.m12| < compeps ∧
          |o.rotation.m20| < compeps ∧ |o.rotation.m21| < compeps)

/-- `SymmetryOperation.__eq__` (utils.py lines 364-370): every rotation
entry within `compeps` (strictly) and the translations equal as
`Vector`s. -/
def symopEq (a b : SymOp) : Bool :=
  decide (|a.rotation.m00 - b.rotation.m00| < compeps ∧
          |a.rotation.m01 - b.rotation.m01| < compeps ∧
          |a.rotation.m02 - b.rotation.m02| < compeps ∧
          |a.rotation.m10 - b.rotation.m10| < compeps ∧
          |a.rotation.m11 - b.rotation.m11| < compeps ∧
          |a.rotation.m12 - b.rotation.m12| < compeps ∧
          |a.rotation.m20 - b.rotation.m20| < compeps ∧
          |a.rotation.m21 - b.rotation.m21| < compeps ∧
          |a.rotation.m22 - b.rotation.m22| < compeps)
    && vecEqB a.translation.vec b.translation.vec

/-- `SymmetryOperation.__lt__` (utils.py lines 375-390): compare the
translations by squared norm; on a tie a diagonal rotation is smaller
than a non-diagonal one, and among diagonal ones only the matrix with
`rotation[0][0] == rotation[1][1] == rotation[2][2] == 1` (the identity)
is declared smaller. -/
def symopLt (a b : SymOp) : Bool :=
  if vecLtB a.translation.vec b.translation.vec then true
  else if vecLtB b.translation.vec a.translation.vec then false
  else if diagonalB a then
    if !(diagonalB b) then true
    else if a.rotation.m00 = a.rotation.m11 ∧ a.rotation.m11 = a.rotation.m22 ∧
            a.rotation.m22 = 1 then true
    else false
  else false

/-- The parsed identity operation: identity rotation matrix, zero
translation with the default interval. -/
def identityOp : SymOp := ⟨idM3, ⟨⟨0, 0, 0⟩, ((0:ℚ), (1:ℚ))⟩⟩

/-- Follows the spec's words (claim C5): a token that is a signed
coordinate variable, i.e. `x`, `y` or `z` optionally prefixed with `+`
or `-`. -/
def specSignedCoordVar (t : List Char) : Bool :=
  t = "x".toList || t = "y".toList || t = "z".toList ||
  t = "+x".toList || t = "+y".toList || t = "+z".toList ||
  t = "-x".toList || t = "-y".toList || t = "-z".toList

/-- Follows the spec's words (claim C5): a token that is a signed
numeric literal (a decimal literal or a fraction such as `1/2`,
optionally signed). -/
def specSignedNumericLiteral (t : List Char) : Bool :=
  match pySplit '/' t with
  | [a] => (parseSignedDec a).isSome
  | [a, b] => (parseSignedDec a).isSome && (parseSignedDec b).isSome
  | _ => false

/-- A concrete iron site at fractional position `(0.15, 0, 0)`. -/
def siteS : AtomSite := mkAtomSite ⟨3/20, 0, 0⟩ [("Fe", 1)]

/-- A concrete iron site at fractional position `(0.15015, 0, 0)`,
within `compeps` of `siteS` componentwise. -/
def siteT : AtomSite := mkAtomSite ⟨3/20 + 3/20000, 0, 0⟩ [("Fe", 1)]

theorem foldUnit_id (x : ℚ) (h0 : 0 ≤ x) (h1 : x < 1) : foldUnit x = x := by
  rw [foldUnit]
  simp [h0, h1]

theorem foldUnit_mem (x : ℚ) : 0 ≤ foldUnit x ∧ foldUnit x < 1 := by
  induction x using foldUnit.induct with
  | case1 x h => rw [foldUnit]; simp [h]
  | case2 x h ih => rw [foldUnit]; simp [h]; exact ih

theorem improveprec_mem (x : ℚ) (h0 : 0 ≤ x) (h1 : x < 1) :
    0 ≤ improveprec x ∧ improveprec x ≤ 1 := by
  unfold improveprec floatlist
  simp only [snapTo]
  split_ifs with hc1 hc2 hc3 hc4 hc5 hc6 hc7 hc8 hc9
  · exact ⟨by norm_num [third], by norm_num [third]⟩
  · exact ⟨by norm_num [third], by norm_num [third]⟩
  · exact ⟨by norm_num [half, one, two], by norm_num [half, one, two]⟩
  · exact ⟨by norm_num [fourth, one, four], by norm_num [fourth, one, four]⟩
  · exact ⟨by norm_num [one], by norm_num [one]⟩
  · exact ⟨by norm_num [zero], by norm_num [zero]⟩
  · exfalso
    rw [abs_le] at hc7
    norm_num [sqrt2, compeps] at hc7
    linarith
  · exact ⟨by norm_num [sixth, one, six], by norm_num [sixth, one, six]⟩
  · exact ⟨by norm_num [sixth, one, six], by norm_num [sixth, one, six]⟩
  · exact ⟨h0, le_of_lt h1⟩

theorem mkLatticeVector_vec_mem (v : V3) :
    (0 ≤ (mkLatticeVector v).vec.x0 ∧ (mkLatticeVector v).vec.x0 ≤ 1) ∧
    (0 ≤ (mkLatticeVector v).vec.x1 ∧ (mkLatticeVector v).vec.x1 ≤ 1) ∧
    (0 ≤ (mkLatticeVector v).vec.x2 ∧ (mkLatticeVector v).vec.x2 ≤ 1) := by
  refine ⟨?_, ?_, ?_⟩ <;>
    exact improveprec_mem _ (foldUnit_mem _).1 (foldUnit_mem _).2

theorem mkLatticeVector_eq_of_mem (v : V3)
    (h0 : 0 ≤ v.x0 ∧ v.x0 < 1) (h1 : 0 ≤ v.x1 ∧ v.x1 < 1)
    (h2 : 0 ≤ v.x2 ∧ v.x2 < 1) :
    mkLatticeVector v = ⟨improveprecV v, ((0:ℚ), (1:ℚ))⟩ := by
  unfold mkLatticeVector intocell1
  rw [foldUnit_id _ h0.1 h0.2, foldUnit_id _ h1.1 h1.2, foldUnit_id _ h2.1 h2.2]

theorem vecNormSq_nonneg (v : V3) : 0 ≤ vecNormSq v := by
  unfold vecNormSq
  positivity

theorem vec_eq_zero_of_normSq_nonpos (v : V3) (h : vecNormSq v ≤ 0) :
    v = ⟨0, 0, 0⟩ := by
  obtain ⟨a, b, c⟩ := v
  unfold vecNormSq at h
  simp only at h
  have ha : a = 0 := by nlinarith [sq_nonneg a, sq_nonneg b, sq_nonneg c]
  have hb : b = 0 := by nlinarith [sq_nonneg a, sq_nonneg b, sq_nonneg c]
  have hc : c = 0 := by nlinarith [sq_nonneg a, sq_nonneg b, sq_nonneg c]
  simp [ha, hb, hc]

theorem transCompAux_error (tok : List Char)
    (hres : pyStrip tok ['+', '-', 'x', 'y', 'z'] ≠ [])
    (heval : pyEval tok = none) :
    ∀ (l : List (List Char)) (acc : ℚ), tok ∈ l →
      ∃ m, transCompAux acc l = .error m := by
  intro l
  induction l with
  | nil => intro acc h; cases h
  | cons hd tl ih =>
    intro acc hmem
    unfold transCompAux
    by_cases hh : pyStrip hd ['+', '-', 'x', 'y', 'z'] ≠ []
    · cases he : pyEval hd with
      | none =>
        exact ⟨"NameError: token is not a recognized expression", by simp [hh, he]⟩
      | some q =>
        rcases List.mem_cons.mp hmem with rfl | htl
        · rw [heval] at he; cases he
        · have := ih q htl
          simpa [hh, he] using this
    · rcases List.mem_cons.mp hmem with rfl | htl
      · exact absurd hres hh
      · have := ih acc htl
        simpa [hh] using this

theorem transComp_error (comp tok : List Char)
    (hmem : tok ∈ tokens comp)
    (hres : pyStrip tok ['+', '-', 'x', 'y', 'z'] ≠ [])
    (heval : pyEval tok = none) :
    ∃ m, transComp comp = .error m :=
  transCompAux_error tok hres heval (tokens comp) 0 hmem

theorem transvec_error (e0 e1 e2 : List Char)
    (h : (∃ m, transComp e0 = .error m) ∨ (∃ m, transComp e1 = .error m) ∨
         (∃ m, transComp e2 = .error m)) :
    ∃ m, transvec e0 e1 e2 = .error m := by
  unfold transvec
  rcases h0 : transComp e0 with m0 | t0 <;>
    rcases h1 : transComp e1 with m1 | t1 <;>
      rcases h2 : transComp e2 with m2 | t2 <;>
        simp_all

theorem mkSymmetryOperation_error_of_bad_token (e0 e1 e2 tok : List Char)
    (hmem : tok ∈ tokens e0 ∨ tok ∈ tokens e1 ∨ tok ∈ tokens e2)
    (hres : pyStrip tok ['+', '-', 'x', 'y', 'z'] ≠ [])
    (heval : pyEval tok = none) :
    ∃ m, mkSymmetryOperation e0 e1 e2 = .error m := by
  unfold mkSymmetryOperation
  rcases hrot : rotmat e0 e1 e2 with m | rot
  · exact ⟨m, rfl⟩
  · have htv : ∃ m, transvec e0 e1 e2 = .error m := by
      apply transvec_error
      rcases hmem with h | h | h
      · exact Or.inl (transComp_error _ _ h hres heval)
      · exact Or.inr (Or.inl (transComp_error _ _ h hres heval))
      · exact Or.inr (Or.inr (transComp_error _ _ h hres heval))
    obtain ⟨m, hm⟩ := htv
    rw [hm]
    exact ⟨m, rfl⟩

theorem mk_quarter :
    mkLatticeVector ⟨1/4, 0, 0⟩ = ⟨⟨1/4, 0, 0⟩, ((0:ℚ), (1:ℚ))⟩ := by
  rw [mkLatticeVector_eq_of_mem _ (by norm_num) (by norm_num) (by norm_num)]
  norm_num [improveprecV, improveprec, snapTo, floatlist, third, half, fourth,
    one, zero, sqrt2, sixth, two, four, six, compeps, abs_le]

theorem mk_half :
    mkLatticeVector ⟨1/2, 0, 0⟩ = ⟨⟨1/2, 0, 0⟩, ((0:ℚ), (1:ℚ))⟩ := by
  rw [mkLatticeVector_eq_of_mem _ (by norm_num) (by norm_num) (by norm_num)]
  norm_num [improveprecV, improveprec, snapTo, floatlist, third, half, fourth,
    one, zero, sqrt2, sixth, two, four, six, compeps, abs_le]

theorem mk_threequarter :
    mkLatticeVector ⟨3/4, 0, 0⟩ = ⟨⟨3/4, 0, 0⟩, ((0:ℚ), (1:ℚ))⟩ := by
  rw [mkLatticeVector_eq_of_mem _ (by norm_num) (by norm_num) (by norm_num)]
  norm_num [improveprecV, improveprec, snapTo, floatlist, third, half, fourth,
    one, zero, sqrt2, sixth, two, four, six, compeps, abs_le]

theorem add_mk_quarter :
    LatticeVector.add (mkLatticeVector ⟨1/4, 0, 0⟩) (mkLatticeVector ⟨1/4, 0, 0⟩)
      = .ok ⟨⟨1/2, 0, 0⟩, ((0:ℚ), (1:ℚ))⟩ := by
  unfold LatticeVector.add
  rw [mk_quarter]
  norm_num
  rw [mk_half]
  have h := foldUnit_id (1/2) (by norm_num) (by norm_num)
  have h' : foldUnit (2⁻¹ : ℚ) = 2⁻¹ := foldUnit_id _ (by norm_num) (by norm_num)
  have h0 := foldUnit_id 0 (by norm_num) (by norm_num)
  simp [intocell1, h, h', h0]

/-- C7: `crystal_system` classifies space-group numbers by the source's
literal ranges — including the unclassified gap at 75 — and returns
"unknown" outside them, never failing. -/
theorem crystal_system_ranges :
    (∀ n : ℤ, 0 < n → n ≤ 2 → crystal_system n = "triclinic")
  ∧ (∀ n : ℤ, 2 < n → n ≤ 15 → crystal_system n = "monoclinic")
  ∧ (∀ n : ℤ, 15 < n → n ≤ 74 → crystal_system n = "orthorhombic")
  ∧ (∀ n : ℤ, 75 < n → n ≤ 142 → crystal_system n = "tetragonal")
  ∧ (∀ n : ℤ, 142 < n → n ≤ 167 → crystal_system n = "trigonal")
  ∧ (∀ n : ℤ, 167 < n → n ≤ 194 → crystal_system n = "hexagonal")
  ∧ (∀ n : ℤ, 194 < n → n ≤ 230 → crystal_system n = "cubic")
  ∧ (∀ n : ℤ, ¬(0 < n ∧ n ≤ 74) → ¬(75 < n ∧ n ≤ 230) → crystal_system n = "unknown")
  ∧ crystal_system 1 = "triclinic" ∧ crystal_system 230 = "cubic"
  ∧ crystal_system 0 = "unknown" := by
  refine ⟨?_, ?_, ?_, ?_, ?_, ?_, ?_, ?_, by rfl, by rfl, by rfl⟩ <;>
    · intro n ha hb
      unfold crystal_system
      split_ifs <;> first | rfl | omega

/-- Witness for C7 at the concrete inputs 1 and 75. -/
theorem crystal_system_ranges_witness :
    crystal_system 1 = "triclinic" ∧ crystal_system 75 = "unknown" :=
  ⟨crystal_system_ranges.1 1 (by norm_num) (by norm_num),
   crystal_system_ranges.2.2.2.2.2.2.2.1 75 (by norm_num) (by norm_num)⟩

/-- C8: for every 3x3 matrix with nonzero determinant,
`mmmult3 (minv3 m) m` is exactly the identity matrix over exact
rationals. -/
theorem minv3_mul_self (m : M3) (h : det3 m ≠ 0) :
    mmmult3 (minv3 m) m = idM3 := by
  obtain ⟨a0, a1, a2, b0, b1, b2, c0, c1, c2⟩ := m
  unfold det3 at h
  simp only at h
  unfold mmmult3 minv3 det3 idM3
  simp only
  rw [M3.mk.injEq]
  refine ⟨?_, ?_, ?_, ?_, ?_, ?_, ?_, ?_, ?_⟩ <;> (field_simp; ring)

/-- Witness for C8 at a concrete non-singular matrix. -/
theorem minv3_mul_self_witness :
    det3 ⟨1, 2, 3, 0, 1, 4, 5, 6, 0⟩ ≠ 0
    ∧ mmmult3 (minv3 ⟨1, 2, 3, 0, 1, 4, 5, 6, 0⟩) ⟨1, 2, 3, 0, 1, 4, 5, 6, 0⟩ = idM3 :=
  ⟨by norm_num [det3], minv3_mul_self _ (by norm_num [det3])⟩

/-- C9 counterexample: `Vector.__init__` contains no length validation,
so constructing a Vector from a two-element sequence succeeds instead of
raising a geometry error. -/
theorem mkVector_length2_succeeds :
    mkVector [1, 2] = .ok ⟨[1, 2]⟩ ∧ ([(1:ℚ), 2].length ≠ 3) :=
  ⟨rfl, by norm_num⟩

/-- C9 (amended): Vector construction never fails — it stores the given
elements whatever their number; no length-3 check is performed. -/
theorem mkVector_total (l : List ℚ) : mkVector l = .ok ⟨l⟩ := rfl

/-- C2 (code bug): `change_interval` updates the interval attribute but
— because `self = self + t` only rebinds a local name — never re-folds
the components: at position `(0.75, 0, 0)` the component stays `0.75`,
outside the requested interval `[-0.5, 0.5)`. -/
theorem change_interval_does_not_fold :
    (LatticeVector.change_interval (mkLatticeVector ⟨3/4, 0, 0⟩)
      (-(1:ℚ)/2, 1/2)).interval = (-(1:ℚ)/2, 1/2)
  ∧ (LatticeVector.change_interval (mkLatticeVector ⟨3/4, 0, 0⟩)
      (-(1:ℚ)/2, 1/2)).vec = ⟨3/4, 0, 0⟩
  ∧ ¬((LatticeVector.change_interval (mkLatticeVector ⟨3/4, 0, 0⟩)
        (-(1:ℚ)/2, 1/2)).interval.1
      ≤ (LatticeVector.change_interval (mkLatticeVector ⟨3/4, 0, 0⟩)
        (-(1:ℚ)/2, 1/2)).vec.x0
    ∧ (LatticeVector.change_interval (mkLatticeVector ⟨3/4, 0, 0⟩)
        (-(1:ℚ)/2, 1/2)).vec.x0
      < (LatticeVector.change_interval (mkLatticeVector ⟨3/4, 0, 0⟩)
        (-(1:ℚ)/2, 1/2)).interval.2) := by
  rw [mk_threequarter]
  unfold LatticeVector.change_interval
  norm_num

/-- C1 (amended): after construction every component of a
`LatticeVector` lies in the closed interval `[interval[0], interval[1]]`
— the final precision snap can land exactly on `interval[1] = 1` — while
the results of addition and of `transform`, which fold once more after
the inner construction, satisfy the half-open cell-membership invariant
`interval[0] <= c < interval[1]` for their declared (default)
interval. -/
theorem latticeVector_cell_membership :
    (∀ v : V3,
      ((mkLatticeVector v).interval.1 ≤ (mkLatticeVector v).vec.x0 ∧
        (mkLatticeVector v).vec.x0 ≤ (mkLatticeVector v).interval.2) ∧
      ((mkLatticeVector v).interval.1 ≤ (mkLatticeVector v).vec.x1 ∧
        (mkLatticeVector v).vec.x1 ≤ (mkLatticeVector v).interval.2) ∧
      ((mkLatticeVector v).interval.1 ≤ (mkLatticeVector v).vec.x2 ∧
        (mkLatticeVector v).vec.x2 ≤ (mkLatticeVector v).interval.2))
  ∧ (∀ (a b : LatticeVector) (r : LatticeVector), LatticeVector.add a b = .ok r →
      (r.interval.1 ≤ r.vec.x0 ∧ r.vec.x0 < r.interval.2) ∧
      (r.interval.1 ≤ r.vec.x1 ∧ r.vec.x1 < r.interval.2) ∧
      (r.interval.1 ≤ r.vec.x2 ∧ r.vec.x2 < r.interval.2))
  ∧ (∀ (lv : LatticeVector) (m : M3),
      ((lv.transform m).interval.1 ≤ (lv.transform m).vec.x0 ∧
        (lv.transform m).vec.x0 < (lv.transform m).interval.2) ∧
      ((lv.transform m).interval.1 ≤ (lv.transform m).vec.x1 ∧
        (lv.transform m).vec.x1 < (lv.transform m).interval.2) ∧
      ((lv.transform m).interval.1 ≤ (lv.transform m).vec.x2 ∧
        (lv.transform m).vec.x2 < (lv.transform m).interval.2)) := by
  refine ⟨fun v => mkLatticeVector_vec_mem v, ?_, ?_⟩
  · intro a b r h
    unfold LatticeVector.add at h
    by_cases hc : a.interval.1 ≠ b.interval.1 ∨ a.interval.2 ≠ b.interval.2
    · rw [if_pos hc] at h
      exact Except.noConfusion h
    · rw [if_neg hc] at h
      injection h with h'
      subst h'
      exact ⟨⟨(foldUnit_mem _).1, (foldUnit_mem _).2⟩,
             ⟨(foldUnit_mem _).1, (foldUnit_mem _).2⟩,
             ⟨(foldUnit_mem _).1, (foldUnit_mem _).2⟩⟩
  · intro lv m
    exact ⟨⟨(foldUnit_mem _).1, (foldUnit_mem _).2⟩,
           ⟨(foldUnit_mem _).1, (foldUnit_mem _).2⟩,
           ⟨(foldUnit_mem _).1, (foldUnit_mem _).2⟩⟩

/-- C1 counterexample: constructing a `LatticeVector` from
`(0.9999, 0, 0)` snaps the first component to `1.0` — within `compeps`
of the conspicuous value `one` — which violates the claimed strict
invariant `interval[0] <= c < interval[1]` for the declared interval
`[0, 1)`. -/
theorem latticeVector_ctor_escapes_interval :
    (mkLatticeVector ⟨9999/10000, 0, 0⟩).vec.x0 = 1
  ∧ ¬((mkLatticeVector ⟨9999/10000, 0, 0⟩).interval.1
        ≤ (mkLatticeVector ⟨9999/10000, 0, 0⟩).vec.x0
      ∧ (mkLatticeVector ⟨9999/10000, 0, 0⟩).vec.x0
        < (mkLatticeVector ⟨9999/10000, 0, 0⟩).interval.2) := by
  have hm : mkLatticeVector ⟨9999/10000, 0, 0⟩ = ⟨⟨1, 0, 0⟩, ((0:ℚ), (1:ℚ))⟩ := by
    rw [mkLatticeVector_eq_of_mem _ (by norm_num) (by norm_num) (by norm_num)]
    norm_num [improveprecV, improveprec, snapTo, floatlist, third, half, fourth,
      one, zero, sqrt2, sixth, two, four, six, compeps, abs_le]
  rw [hm]
  norm_num

/-- Witness for C1's addition clause at a concrete pair of lattice
vectors. -/
theorem latticeVector_cell_membership_witness :
    ((⟨⟨1/2, 0, 0⟩, ((0:ℚ), (1:ℚ))⟩ : LatticeVector).interval.1
        ≤ (⟨⟨1/2, 0, 0⟩, ((0:ℚ), (1:ℚ))⟩ : LatticeVector).vec.x0
      ∧ (⟨⟨1/2, 0, 0⟩, ((0:ℚ), (1:ℚ))⟩ : LatticeVector).vec.x0
        < (⟨⟨1/2, 0, 0⟩, ((0:ℚ), (1:ℚ))⟩ : LatticeVector).interval.2)
  ∧ ((⟨⟨1/2, 0, 0⟩, ((0:ℚ), (1:ℚ))⟩ : LatticeVector).interval.1
        ≤ (⟨⟨1/2, 0, 0⟩, ((0:ℚ), (1:ℚ))⟩ : LatticeVector).vec.x1
      ∧ (⟨⟨1/2, 0, 0⟩, ((0:ℚ), (1:ℚ))⟩ : LatticeVector).vec.x1
        < (⟨⟨1/2, 0, 0⟩, ((0:ℚ), (1:ℚ))⟩ : LatticeVector).interval.2)
  ∧ ((⟨⟨1/2, 0, 0⟩, ((0:ℚ), (1:ℚ))⟩ : LatticeVector).interval.1
        ≤ (⟨⟨1/2, 0, 0⟩, ((0:ℚ), (1:ℚ))⟩ : LatticeVector).vec.x2
      ∧ (⟨⟨1/2, 0, 0⟩, ((0:ℚ), (1:ℚ))⟩ : LatticeVector).vec.x2
        < (⟨⟨1/2, 0, 0⟩, ((0:ℚ), (1:ℚ))⟩ : LatticeVector).interval.2) :=
  latticeVector_cell_membership.2.1 (mkLatticeVector ⟨1/4, 0, 0⟩)
    (mkLatticeVector ⟨1/4, 0, 0⟩) _ add_mk_quarter

/-- C6: `LatticeVector` addition fails exactly when the two interval
definitions differ (the embedding is pure, matching the fact that the
source raises before mutating either operand), and on success the result
is folded into its own declared interval `[0, 1)`. -/
theorem add_interval_contract (a b : LatticeVector) :
    ((LatticeVector.add a b).isOk = false ↔ a.interval ≠ b.interval)
  ∧ (∀ r, LatticeVector.add a b = .ok r →
      r.interval = ((0:ℚ), (1:ℚ))
      ∧ (r.interval.1 ≤ r.vec.x0 ∧ r.vec.x0 < r.interval.2)
      ∧ (r.interval.1 ≤ r.vec.x1 ∧ r.vec.x1 < r.interval.2)
      ∧ (r.interval.1 ≤ r.vec.x2 ∧ r.vec.x2 < r.interval.2)) := by
  unfold LatticeVector.add
  by_cases hc : a.interval.1 ≠ b.interval.1 ∨ a.interval.2 ≠ b.interval.2
  · rw [if_pos hc]
    refine ⟨⟨fun _ heq => ?_, fun _ => rfl⟩, fun r h => Except.noConfusion h⟩
    rcases hc with h1 | h1
    · exact h1 (congrArg Prod.fst heq)
    · exact h1 (congrArg Prod.snd heq)
  · rw [if_neg hc]
    push_neg at hc
    constructor
    · constructor
      · intro habs
        simp [Except.isOk, Except.toBool] at habs
      · intro hne
        exact absurd (Prod.ext hc.1 hc.2) hne
    · intro r h
      injection h with h'
      subst h'
      exact ⟨rfl,
             ⟨(foldUnit_mem _).1, (foldUnit_mem _).2⟩,
             ⟨(foldUnit_mem _).1, (foldUnit_mem _).2⟩,
             ⟨(foldUnit_mem _).1, (foldUnit_mem _).2⟩⟩

/-- Witness for C6: a mismatched pair of intervals makes addition fail,
and a matched pair yields a folded result. -/
theorem add_interval_contract_witness :
    (LatticeVector.add (mkLatticeVector ⟨1/4, 0, 0⟩)
      (LatticeVector.change_interval (mkLatticeVector ⟨1/4, 0, 0⟩)
        (-(1:ℚ)/2, 1/2))).isOk = false
  ∧ ((⟨⟨1/2, 0, 0⟩, ((0:ℚ), (1:ℚ))⟩ : LatticeVector).interval = ((0:ℚ), (1:ℚ))
      ∧ ((⟨⟨1/2, 0, 0⟩, ((0:ℚ), (1:ℚ))⟩ : LatticeVector).interval.1
            ≤ (⟨⟨1/2, 0, 0⟩, ((0:ℚ), (1:ℚ))⟩ : LatticeVector).vec.x0
          ∧ (⟨⟨1/2, 0, 0⟩, ((0:ℚ), (1:ℚ))⟩ : LatticeVector).vec.x0
            < (⟨⟨1/2, 0, 0⟩, ((0:ℚ), (1:ℚ))⟩ : LatticeVector).interval.2)
      ∧ ((⟨⟨1/2, 0, 0⟩, ((0:ℚ), (1:ℚ))⟩ : LatticeVector).interval.1
            ≤ (⟨⟨1/2, 0, 0⟩, ((0:ℚ), (1:ℚ))⟩ : LatticeVector).vec.x1
          ∧ (⟨⟨1/2, 0, 0⟩, ((0:ℚ), (1:ℚ))⟩ : LatticeVector).vec.x1
            < (⟨⟨1/2, 0, 0⟩, ((0:ℚ), (1:ℚ))⟩ : LatticeVector).interval.2)
      ∧ ((⟨⟨1/2, 0, 0⟩, ((0:ℚ), (1:ℚ))⟩ : LatticeVector).interval.1
            ≤ (⟨⟨1/2, 0, 0⟩, ((0:ℚ), (1:ℚ))⟩ : LatticeVector).vec.x2
          ∧ (⟨⟨1/2, 0, 0⟩, ((0:ℚ), (1:ℚ))⟩ : LatticeVector).vec.x2
            < (⟨⟨1/2, 0, 0⟩, ((0:ℚ), (1:ℚ))⟩ : LatticeVector).interval.2)) :=
  ⟨(add_interval_contract _ _).1.mpr (by
      intro heq
      have := congrArg Prod.fst heq
      norm_num [mkLatticeVector, LatticeVector.change_interval] at this),
   (add_interval_contract _ _).2 _ add_mk_quarter⟩

/-- C10: whatever shared interval the operands carry (here the
non-default `[-0.5, 0.5)` produced by `change_interval`), addition
returns a result carrying the default interval `[0, 1)` with components
folded into `[0, 1)`; `transform` likewise always returns the default
interval. -/
theorem add_transform_default_interval :
    (∀ a b : LatticeVector,
      a.interval = (-(1:ℚ)/2, 1/2) → b.interval = (-(1:ℚ)/2, 1/2) →
      ∃ r, LatticeVector.add a b = .ok r ∧ r.interval = ((0:ℚ), (1:ℚ))
        ∧ (0 ≤ r.vec.x0 ∧ r.vec.x0 < 1) ∧ (0 ≤ r.vec.x1 ∧ r.vec.x1 < 1)
        ∧ (0 ≤ r.vec.x2 ∧ r.vec.x2 < 1))
  ∧ (∀ (lv : LatticeVector) (m : M3),
      (lv.transform m).interval = ((0:ℚ), (1:ℚ))
      ∧ (0 ≤ (lv.transform m).vec.x0 ∧ (lv.transform m).vec.x0 < 1)
      ∧ (0 ≤ (lv.transform m).vec.x1 ∧ (lv.transform m).vec.x1 < 1)
      ∧ (0 ≤ (lv.transform m).vec.x2 ∧ (lv.transform m).vec.x2 < 1)) := by
  constructor
  · intro a b ha hb
    unfold LatticeVector.add
    rw [ha, hb]
    rw [if_neg (by simp)]
    exact ⟨_, rfl, rfl,
           ⟨(foldUnit_mem _).1, (foldUnit_mem _).2⟩,
           ⟨(foldUnit_mem _).1, (foldUnit_mem _).2⟩,
           ⟨(foldUnit_mem _).1, (foldUnit_mem _).2⟩⟩
  · intro lv m
    exact ⟨rfl,
           ⟨(foldUnit_mem _).1, (foldUnit_mem _).2⟩,
           ⟨(foldUnit_mem _).1, (foldUnit_mem _).2⟩,
           ⟨(foldUnit_mem _).1, (foldUnit_mem _).2⟩⟩

/-- Witness for C10 at two concrete lattice vectors re-expressed in
`[-0.5, 0.5)` by `change_interval`, and a concrete transform. -/
theorem add_transform_default_interval_witness :
    (∃ r, LatticeVector.add
        (LatticeVector.change_interval (mkLatticeVector ⟨1/4, 0, 0⟩) (-(1:ℚ)/2, 1/2))
        (LatticeVector.change_interval (mkLatticeVector ⟨1/4, 0, 0⟩) (-(1:ℚ)/2, 1/2))
        = .ok r ∧ r.interval = ((0:ℚ), (1:ℚ))
      ∧ (0 ≤ r.vec.x0 ∧ r.vec.x0 < 1) ∧ (0 ≤ r.vec.x1 ∧ r.vec.x1 < 1)
      ∧ (0 ≤ r.vec.x2 ∧ r.vec.x2 < 1))
  ∧ ((mkLatticeVector ⟨1/4, 0, 0⟩).transform idM3).interval = ((0:ℚ), (1:ℚ)) :=
  ⟨add_transform_default_interval.1 _ _ rfl rfl,
   (add_transform_default_interval.2 (mkLatticeVector ⟨1/4, 0, 0⟩) idM3).1⟩

theorem mk_p15 :
    mkLatticeVector ⟨3/20, 0, 0⟩ = ⟨⟨3/20, 0, 0⟩, ((0:ℚ), (1:ℚ))⟩ := by
  rw [mkLatticeVector_eq_of_mem _ (by norm_num) (by norm_num) (by norm_num)]
  norm_num [improveprecV, improveprec, snapTo, floatlist, third, half, fourth,
    one, zero, sqrt2, sixth, two, four, six, compeps, abs_le]

theorem mk_p15015 :
    mkLatticeVector ⟨3/20 + 3/20000, 0, 0⟩ = ⟨⟨3003/20000, 0, 0⟩, ((0:ℚ), (1:ℚ))⟩ := by
  rw [mkLatticeVector_eq_of_mem _ (by norm_num) (by norm_num) (by norm_num)]
  norm_num [improveprecV, improveprec, snapTo, floatlist, third, half, fourth,
    one, zero, sqrt2, sixth, two, four, six, compeps, abs_le]

theorem siteS_eval :
    siteS = { position := ⟨⟨3/20, 0, 0⟩, ((0:ℚ), (1:ℚ))⟩,
              species := [("Fe", 1)], label := "",
              charges := [("Fe", 0)], index := none } := by
  unfold siteS mkAtomSite
  rw [mk_p15]
  rfl

theorem siteT_eval :
    siteT = { position := ⟨⟨3003/20000, 0, 0⟩, ((0:ℚ), (1:ℚ))⟩,
              species := [("Fe", 1)], label := "",
              charges := [("Fe", 0)], index := none } := by
  unfold siteT mkAtomSite
  rw [mk_p15015]
  rfl

/-- C3 (amended): two `AtomSite`s with positions within `compeps`
componentwise and identical species compare equal; their hashes agree
when the stored positions are identical as exact values — hash equality
does not follow from mere tolerance-closeness of the positions. -/
theorem atomSite_eq_and_hash (s t : AtomSite) :
    (|s.position.vec.x0 - t.position.vec.x0| < compeps →
      |s.position.vec.x1 - t.position.vec.x1| < compeps →
      |s.position.vec.x2 - t.position.vec.x2| < compeps →
      s.species = t.species → siteEq s t = true)
  ∧ (s.position.vec = t.position.vec → s.species = t.species →
      siteHash s = siteHash t) := by
  constructor
  · intro h0 h1 h2 hs
    unfold siteEq vecEqB
    rw [if_neg (not_lt.mpr (le_of_lt h0)), if_neg (not_lt.mpr (le_of_lt h1)),
        if_neg (not_lt.mpr (le_of_lt h2))]
    simp [hs]
  · intro hp hs
    unfold siteHash vectorHash
    rw [hp, hs]

/-- C3 counterexample: `siteS` and `siteT` have positions within
`compeps` componentwise (0.15 versus 0.15015) and identical species, so
they compare equal — yet their hashes differ, because the hash is built
from the raw weighted component sum. -/
theorem atomSite_hash_not_tolerance_invariant :
    (|siteS.position.vec.x0 - siteT.position.vec.x0| < compeps
      ∧ |siteS.position.vec.x1 - siteT.position.vec.x1| < compeps
      ∧ |siteS.position.vec.x2 - siteT.position.vec.x2| < compeps
      ∧ siteS.species = siteT.species)
  ∧ siteEq siteS siteT = true
  ∧ siteHash siteS ≠ siteHash siteT := by
  rw [siteS_eval, siteT_eval]
  refine ⟨⟨by norm_num [compeps, abs_lt], by norm_num [compeps],
           by norm_num [compeps], rfl⟩, ?_, ?_⟩
  · unfold siteEq vecEqB
    norm_num [compeps, abs_le, abs_lt]
  · unfold siteHash
    simp only [add_left_inj]
    norm_num [vectorHash]

/-- Witness for C3 at a pair of concrete sites with identical stored
positions and species. -/
theorem atomSite_eq_and_hash_witness :
    siteEq siteS siteS = true ∧ siteHash siteS = siteHash siteS :=
  ⟨(atomSite_eq_and_hash siteS siteS).1 (by simp [compeps]) (by simp [compeps])
      (by simp [compeps]) rfl,
   (atomSite_eq_and_hash siteS siteS).2 rfl rfl⟩

theorem mk_zero :
    mkLatticeVector ⟨0, 0, 0⟩ = ⟨⟨0, 0, 0⟩, ((0:ℚ), (1:ℚ))⟩ := by
  rw [mkLatticeVector_eq_of_mem _ (by norm_num) (by norm_num) (by norm_num)]
  norm_num [improveprecV, improveprec, snapTo, floatlist, third, half, fourth,
    one, zero, sqrt2, sixth, two, four, six, compeps, abs_le]

theorem symop_xyz_parses :
    mkSymmetryOperation "x".toList "y".toList "z".toList = .ok identityOp := by
  have h : mkSymmetryOperation "x".toList "y".toList "z".toList
      = .ok ⟨idM3, mkLatticeVector ⟨0, 0, 0⟩⟩ := rfl
  rw [h, mk_zero]
  rfl

/-- C4: the equivalent-site expression `"x,y,z"` parses to the identity
rotation matrix and the zero translation, and every symmetry operation
not equal to the identity (under the class's tolerance equality) is not
less than it, so sorting any list containing the identity puts it
first. -/
theorem identity_parses_and_sorts_first :
    mkSymmetryOperation "x".toList "y".toList "z".toList = .ok identityOp
  ∧ identityOp.rotation = idM3
  ∧ identityOp.translation.vec = ⟨0, 0, 0⟩
  ∧ (∀ o : SymOp, symopEq o identityOp = false → symopLt o identityOp = false) := by
  refine ⟨symop_xyz_parses, rfl, rfl, ?_⟩
  intro o h
  have hnn := vecNormSq_nonneg o.translation.vec
  have hz : vecNormSq identityOp.translation.vec = 0 := by
    norm_num [identityOp, vecNormSq]
  have h1 : vecLtB o.translation.vec identityOp.translation.vec = false := by
    apply decide_eq_false
    rw [hz]
    exact not_lt.mpr hnn
  by_cases h2 : vecLtB identityOp.translation.vec o.translation.vec = true
  · simp [symopLt, h1, h2]
  · have ht0 : o.translation.vec = ⟨0, 0, 0⟩ := by
      apply vec_eq_zero_of_normSq_nonpos
      have hno : ¬ (vecNormSq identityOp.translation.vec < vecNormSq o.translation.vec) := by
        intro hlt
        exact h2 (decide_eq_true hlt)
      rw [hz] at hno
      exact not_lt.mp hno
    by_cases h3 : diagonalB o = true
    · by_cases h4 : o.rotation.m00 = o.rotation.m11 ∧ o.rotation.m11 = o.rotation.m22 ∧
          o.rotation.m22 = 1
      · exfalso
        have heq : symopEq o identityOp = true := by
          unfold symopEq
          rw [Bool.and_eq_true]
          constructor
          · rw [decide_eq_true_eq]
            obtain ⟨e1, e2, e3⟩ := h4
            unfold diagonalB at h3
            rw [decide_eq_true_eq] at h3
            obtain ⟨d1, d2, d3, d4, d5, d6⟩ := h3
            have hm00 : o.rotation.m00 = 1 := by rw [e1, e2, e3]
            have hm11 : o.rotation.m11 = 1 := by rw [e2, e3]
            refine ⟨?_, ?_, ?_, ?_, ?_, ?_, ?_, ?_, ?_⟩ <;>
              simp [identityOp, idM3, hm00, hm11, e3, d1, d2, d3, d4, d5, d6] <;>
              norm_num [compeps]
          · rw [ht0]
            unfold vecEqB
            norm_num [compeps, identityOp]
        rw [heq] at h
        exact Bool.noConfusion h
      · have hdi : diagonalB identityOp = true := by
          unfold diagonalB identityOp idM3
          rw [decide_eq_true_eq]
          norm_num [compeps]
        simp [symopLt, h1, h2, h3, h4, hdi]
    · simp [symopLt, h1, h2, h3]

/-- Witness for C4's ordering clause at the inversion operation. -/
theorem identity_parses_and_sorts_first_witness :
    symopLt ⟨⟨-1, 0, 0, 0, -1, 0, 0, 0, -1⟩, ⟨⟨0, 0, 0⟩, ((0:ℚ), (1:ℚ))⟩⟩
      identityOp = false :=
  identity_parses_and_sorts_first.2.2.2 _
    (by norm_num [symopEq, identityOp, idM3, compeps, vecEqB, abs_lt])

/-- C5 (amended): an equivalent-site component token whose residue after
stripping the characters `+ - x y z` is nonempty and which `eval` cannot
resolve (it is not a numeric literal, a fraction, or an in-scope module
constant) makes `SymmetryOperation` construction raise — though the
error is Python's evaluation error, not the module's `SymmetryError`;
tokens that strip to an empty residue (such as `xx`) or that name a
module constant (such as `half`) raise nothing. -/
theorem symop_unresolvable_token_raises (e0 e1 e2 tok : List Char)
    (hmem : tok ∈ tokens e0 ∨ tok ∈ tokens e1 ∨ tok ∈ tokens e2)
    (hres : pyStrip tok ['+', '-', 'x', 'y', 'z'] ≠ [])
    (heval : pyEval tok = none) :
    ∃ m, mkSymmetryOperation e0 e1 e2 = .error m :=
  mkSymmetryOperation_error_of_bad_token e0 e1 e2 tok hmem hres heval

/-- Witness for C5 at the expression `"x+w,y,z"`, whose token `+w` has
residue `w` and fails evaluation. -/
theorem symop_unresolvable_token_raises_witness :
    ("+w".toList ∈ tokens "x+w".toList ∨ "+w".toList ∈ tokens "y".toList ∨
      "+w".toList ∈ tokens "z".toList)
    ∧ pyStrip "+w".toList ['+', '-', 'x', 'y', 'z'] ≠ []
    ∧ pyEval "+w".toList = none
    ∧ ∃ m, mkSymmetryOperation "x+w".toList "y".toList "z".toList = .error m :=
  ⟨by decide, by decide, by decide,
   symop_unresolvable_token_raises _ _ _ "+w".toList (by decide) (by decide) (by decide)⟩

/-- C5 counterexample: the token `xx` is neither a signed coordinate
variable nor a signed numeric literal, yet constructing a
`SymmetryOperation` from `"xx,y,z"` raises nothing — the token strips to
an empty residue and is silently ignored. -/
theorem symop_unrecognized_token_ignored :
    specSignedCoordVar "xx".toList = false
  ∧ specSignedNumericLiteral "xx".toList = false
  ∧ (mkSymmetryOperation "xx".toList "y".toList "z".toList).isOk = true := by
  exact ⟨by decide, by decide, rfl⟩

end Cif2Cell
